import Mathlib

/-!
# Seabattle: the turn protocol engine of `src/main.cpp`

A shallow embedding of `SeabattleAgent` (move codec, result codec, turn loop)
together with the properties of its wire protocol and turn state machine.

* A byte on the wire is a `Fin 256`.  Whether the C++ type `char` is signed is
  left to the platform, so every function that converts a `char` to `int`
  takes the flag `signedChar`.
* `int` values are modelled by `Int`.  `ParseMove` and `ReadResult` only
  subtract a character literal from a `char`, and `MoveToString` is only
  applied to moves that `ParseMove` returned, so no `int` overflows.
* `class SeabattleField` lives in `seabattle.h`, which is not among the
  sources; its operations are the fields of `FieldOps`.
-/

namespace Seabattle

/-- One byte as it travels over the socket. -/
abbrev Byte := Fin 256

/-- The value of a `char` holding the bit pattern `b`, promoted to `int`:
two's complement when `char` is signed, the plain value otherwise. -/
def charToInt (signedChar : Bool) (b : Byte) : Int :=
  if signedChar && decide (128 ≤ b.val) then (b.val : Int) - 256 else (b.val : Int)

/-- The conversion `static_cast<char>(n)` of an `int`: the low eight bits. -/
def intToChar (n : Int) : Byte :=
  ⟨(n % 256).toNat, by
    have h1 : 0 ≤ n % 256 := Int.emod_nonneg n (by decide)
    have h2 : n % 256 < 256 := Int.emod_lt_of_pos n (by decide)
    omega⟩

/-- The character literal `'A'` as an `int`. -/
def chA : Int := 65

/-- The character literal `'1'` as an `int`. -/
def ch1 : Int := 49

/-- `SeabattleAgent::ParseMove` (main.cpp 118-130). -/
def ParseMove (signedChar : Bool) (sv : List Byte) : Option (Int × Int) :=
  if sv.length ≠ 2 then
    none
  else
    let p1 := charToInt signedChar (sv.getD 0 0) - chA
    let p2 := charToInt signedChar (sv.getD 1 0) - ch1
    if p1 < 0 ∨ p1 > 8 then
      none
    else if p2 < 0 ∨ p2 > 8 then
      none
    else
      some (p1, p2)

/-- `SeabattleAgent::MoveToString` (main.cpp 132-135). -/
def MoveToString (move : Int × Int) : List Byte :=
  [intToChar (chA + move.1), intToChar (ch1 + move.2)]

/-- Modelled from the spec: `enum class SeabattleField::ShotResult` is declared
in `seabattle.h`, which is not among the sources.  Spec §4.2: the enum has the
three values MISS = 0, HIT = 1, KILL = 2. -/
inductive ShotResult where
  | MISS
  | HIT
  | KILL
  deriving DecidableEq, Repr

/-- The numeric value of a `ShotResult` (MISS = 0, HIT = 1, KILL = 2). -/
def ShotResult.toInt : ShotResult → Int
  | .MISS => 0
  | .HIT => 1
  | .KILL => 2

/-- The conversion `static_cast<ShotResult>(ch)`.  `ReadResult` only applies
it to `0`, `1` and `2`; any other number is no named enumerator and is mapped
to `KILL` here only to keep the function total. -/
def ShotResult.ofInt (ch : Int) : ShotResult :=
  if ch = 0 then .MISS else if ch = 1 then .HIT else .KILL

/-- Modelled from the spec: `class SeabattleField` is declared in
`seabattle.h`, which is not among the sources.  Its members used by
`main.cpp` are taken as parameters, with the signatures of spec §4.1:
`Shoot` returns a result and changes the board, or fails with an exception;
the three `Mark` operations change the board; `IsLoser` and the printing
members are const. -/
structure FieldOps (F : Type) where
  field_size : Nat
  Shoot : F → Int → Int → Except String (ShotResult × F)
  MarkMiss : F → Int → Int → F
  MarkHit : F → Int → Int → F
  MarkKill : F → Int → Int → F
  IsLoser : F → Bool
  PrintDigitLine : String
  PrintLine : F → Nat → String

/-- The transport (a connected `tcp::socket`) as the agent sees it:
`incoming` are the bytes the peer delivers before the connection ends,
`capacity` is how many bytes can still be written before writing fails,
`sent` are the bytes written so far. -/
structure Socket where
  incoming : List Byte
  capacity : Nat
  sent : List Byte
  deriving DecidableEq, Repr

/-- `ReadExact<sz>` (main.cpp 42-54): exactly `sz` bytes, or `nullopt` when
the stream ends first. -/
def ReadExact (sz : Nat) (socket : Socket) : Option (List Byte) × Socket :=
  if sz ≤ socket.incoming.length then
    (some (socket.incoming.take sz), { socket with incoming := socket.incoming.drop sz })
  else
    (none, { socket with incoming := [] })

/-- `WriteExact` (main.cpp 56-62): writes all of `data`, or reports failure. -/
def WriteExact (socket : Socket) (data : List Byte) : Bool × Socket :=
  if data.length ≤ socket.capacity then
    (true, { socket with sent := socket.sent ++ data,
                         capacity := socket.capacity - data.length })
  else
    (false, { socket with sent := socket.sent ++ data.take socket.capacity,
                          capacity := 0 })

/-- Everything `StartGame` reads or changes: the two members of
`SeabattleAgent`, the socket, the words still to come on `std::cin`, and the
pieces written to `std::cout` so far (one entry per `<<`). -/
structure Game (F : Type) where
  my_field_ : F
  other_field_ : F
  socket : Socket
  cin : List (List Byte)
  cout : List String

/-- How a member function ends: it returns `value`, or it throws
`std::runtime_error(what)`; either way `g` is the state it leaves behind. -/
inductive Res (F : Type) (α : Type) where
  | ok (value : α) (g : Game F)
  | thrown (what : String) (g : Game F)

/-- The state a call leaves behind. -/
def Res.game {F α : Type} : Res F α → Game F
  | .ok _ g => g
  | .thrown _ g => g

/-- Whether a call ended by throwing. -/
def Res.isThrown {F α : Type} : Res F α → Bool
  | .ok _ _ => false
  | .thrown _ _ => true

/-- The text of a byte string, for messages. -/
def bytesToString (bs : List Byte) : String :=
  String.mk (bs.map (fun b => Char.ofNat b.val))

/-- The statement `std::cout << s`. -/
def Game.print {F : Type} (g : Game F) (s : String) : Game F :=
  { g with cout := g.cout ++ [s] }

/-- The statement `std::cin >> input` on a fresh string: the next word, or the
empty string when the input has ended. -/
def Game.readWord {F : Type} (g : Game F) : List Byte × Game F :=
  match g.cin with
  | [] => ([], g)
  | w :: rest => (w, { g with cin := rest })

/-- `PrintFieldPair` (main.cpp 20-40): the pieces written to `std::cout`. -/
def PrintFieldPair {F : Type} (ops : FieldOps F) (left right : F) : List String :=
  let left_pad := "  "
  let delimeter := "    "
  let digits := [left_pad, ops.PrintDigitLine, delimeter, ops.PrintDigitLine, "\n"]
  digits
    ++ ((List.range ops.field_size).map (fun i =>
          [left_pad, ops.PrintLine left i, delimeter, ops.PrintLine right i, "\n"])).flatten
    ++ digits

/-- `SeabattleAgent::PrintFields` (main.cpp 137-139). -/
def PrintFields {F : Type} (ops : FieldOps F) (g : Game F) : Game F :=
  { g with cout := g.cout ++ PrintFieldPair ops g.my_field_ g.other_field_ }

/-- `SeabattleAgent::IsGameEnded` (main.cpp 141-143). -/
def IsGameEnded {F : Type} (ops : FieldOps F) (g : Game F) : Bool :=
  ops.IsLoser g.my_field_ || ops.IsLoser g.other_field_

/-- `SeabattleAgent::ReadMove` (main.cpp 145-155). -/
def ReadMove {F : Type} (signedChar : Bool) (g : Game F) : Res F (Int × Int) :=
  match ReadExact 2 g.socket with
  | (none, socket) =>
    .thrown "Failed to read move from socket" { g with socket := socket }
  | (some data, socket) =>
    match ParseMove signedChar data with
    | none =>
      .thrown ("Invalid move received: " ++ bytesToString data) { g with socket := socket }
    | some move => .ok move { g with socket := socket }

/-- `SeabattleAgent::ReadResult` (main.cpp 157-167). -/
def ReadResult {F : Type} (signedChar : Bool) (g : Game F) : Res F ShotResult :=
  match ReadExact 1 g.socket with
  | (none, socket) =>
    .thrown "Failed to read result from socket" { g with socket := socket }
  | (some data, socket) =>
    let ch := charToInt signedChar (data.getD 0 0)
    if ch < 0 ∨ ch > 2 then
      .thrown "Invalid shoot received: " { g with socket := socket }
    else
      .ok (ShotResult.ofInt ch) { g with socket := socket }

/-- `SeabattleAgent::SendMove` (main.cpp 169-174). -/
def SendMove {F : Type} (g : Game F) (move : Int × Int) : Res F Unit :=
  let str := MoveToString move
  match WriteExact g.socket str with
  | (false, socket) => .thrown "Failed to send move" { g with socket := socket }
  | (true, socket) => .ok () { g with socket := socket }

/-- `SeabattleAgent::SendResult` (main.cpp 176-181). -/
def SendResult {F : Type} (g : Game F) (result : ShotResult) : Res F Unit :=
  let ch := intToChar result.toInt
  match WriteExact g.socket [ch] with
  | (false, socket) => .thrown "Failed to send result" { g with socket := socket }
  | (true, socket) => .ok () { g with socket := socket }

/-- The branch `if (my_initiative)` of the loop body of `StartGame`
(main.cpp 73-100).  The value returned is `my_initiative` at the end of the
iteration. -/
def localTurn {F : Type} (ops : FieldOps F) (signedChar : Bool) (g : Game F)
    (my_initiative : Bool) : Res F Bool :=
  let g := g.print "Your turn: "
  let (input, g) := g.readWord
  match ParseMove signedChar input with
  | none => .ok my_initiative (g.print "Wrong input, try again\n")
  | some move =>
    match SendMove g move with
    | .thrown what g => .thrown what g
    | .ok () g =>
      match ReadResult signedChar g with
      | .thrown what g => .thrown what g
      | .ok result g =>
        match result with
        | .MISS =>
          let g := g.print "Miss!\n"
          .ok false { g with other_field_ := ops.MarkMiss g.other_field_ move.2 move.1 }
        | .HIT =>
          let g := g.print "Hit!\n"
          .ok my_initiative { g with other_field_ := ops.MarkHit g.other_field_ move.2 move.1 }
        | .KILL =>
          let g := g.print "Kill!\n"
          .ok my_initiative { g with other_field_ := ops.MarkKill g.other_field_ move.2 move.1 }

/-- The `else` branch of the loop body of `StartGame` (main.cpp 101-110).
The value returned is `my_initiative` at the end of the iteration. -/
def remoteTurn {F : Type} (ops : FieldOps F) (signedChar : Bool) (g : Game F)
    (my_initiative : Bool) : Res F Bool :=
  let g := g.print "Waiting for turn...\n"
  match ReadMove signedChar g with
  | .thrown what g => .thrown what g
  | .ok move g =>
    match ops.Shoot g.my_field_ move.2 move.1 with
    | .error what => .thrown what g
    | .ok (result, field) =>
      let g := { g with my_field_ := field }
      let g := ((g.print "Shoot to ").print (bytesToString (MoveToString move))).print "\n"
      match SendResult g result with
      | .thrown what g => .thrown what g
      | .ok () g => .ok (if result = ShotResult.MISS then true else my_initiative) g

/-- One pass through the body of the `while` loop of `StartGame`
(main.cpp 70-110). -/
def loopBody {F : Type} (ops : FieldOps F) (signedChar : Bool) (g : Game F)
    (my_initiative : Bool) : Res F Bool :=
  let g := PrintFields ops g
  if my_initiative then localTurn ops signedChar g my_initiative
  else remoteTurn ops signedChar g my_initiative

/-- The statements of `StartGame` after the loop (main.cpp 113-114). -/
def gameOver {F : Type} (ops : FieldOps F) (g : Game F) : Game F :=
  let g := PrintFields ops g
  ((g.print "Game over! ").print
    (if ops.IsLoser g.my_field_ then "You lose." else "You win!")).print "\n"

/-- `SeabattleAgent::StartGame` (main.cpp 68-115).  `fuel` bounds the number of
times the loop condition is tested; `none` means the bound was reached while
the loop was still running. -/
def StartGame {F : Type} (ops : FieldOps F) (signedChar : Bool) :
    Nat → Game F → Bool → Option (Res F Unit)
  | 0, _, _ => none
  | fuel + 1, g, my_initiative =>
    if IsGameEnded ops g then
      some (.ok () (gameOver ops g))
    else
      match loopBody ops signedChar g my_initiative with
      | .thrown what g => some (.thrown what g)
      | .ok my_initiative g => StartGame ops signedChar fuel g my_initiative

/-- The socket after bytes were taken from it, `rest` being left. -/
def Socket.consumed (socket : Socket) (rest : List Byte) : Socket :=
  { socket with incoming := rest }

/-- The game after its socket delivered bytes, `rest` being left. -/
def Game.received {F : Type} (g : Game F) (rest : List Byte) : Game F :=
  { g with socket := g.socket.consumed rest }

/-- The game after `data` was written to its socket. -/
def Game.wrote {F : Type} (g : Game F) (data : List Byte) : Game F :=
  { g with socket := { g.socket with sent := g.socket.sent ++ data,
                                     capacity := g.socket.capacity - data.length } }

/-- The value of the local variable `result` in one pass through the loop body
of `StartGame` (main.cpp 84 in the local turn, main.cpp 104 in the remote
turn), or `none` when the pass does not reach its declaration. -/
def handledResult {F : Type} (ops : FieldOps F) (signedChar : Bool) (g : Game F)
    (my_initiative : Bool) : Option ShotResult :=
  let g := PrintFields ops g
  if my_initiative then
    let g := g.print "Your turn: "
    let (input, g) := g.readWord
    match ParseMove signedChar input with
    | none => none
    | some move =>
      match SendMove g move with
      | .thrown _ _ => none
      | .ok () g =>
        match ReadResult signedChar g with
        | .thrown _ _ => none
        | .ok result _ => some result
  else
    let g := g.print "Waiting for turn...\n"
    match ReadMove signedChar g with
    | .thrown _ _ => none
    | .ok move g =>
      match ops.Shoot g.my_field_ move.2 move.1 with
      | .error _ => none
      | .ok (result, _) => some result

/-! ### A board to run the engine on

`FieldOps` is an interface; the concrete games below use a small board that
implements it: every ship occupies one cell, and the board keeps a record of
the calls it receives. -/

/-- A call received by a `SampleField`, with its two arguments in order. -/
inductive Call where
  | Shoot (x y : Int)
  | MarkMiss (x y : Int)
  | MarkHit (x y : Int)
  | MarkKill (x y : Int)
  deriving DecidableEq, Repr

/-- A board of one-cell ships: `weight` counts the ship cells not yet
destroyed, `ships` lists the cells `(x, y)` of the ships still afloat, and
`calls` records the calls received, oldest first. -/
structure SampleField where
  weight : Nat
  ships : List (Int × Int)
  calls : List Call
  deriving DecidableEq, Repr

/-- The operations of `SampleField`. -/
def sampleOps : FieldOps SampleField where
  field_size := 9
  Shoot := fun f x y =>
    if (x, y) ∈ f.ships then
      .ok (ShotResult.KILL,
        { weight := f.weight - 1, ships := f.ships.erase (x, y),
          calls := f.calls ++ [Call.Shoot x y] })
    else
      .ok (ShotResult.MISS, { f with calls := f.calls ++ [Call.Shoot x y] })
  MarkMiss := fun f x y => { f with calls := f.calls ++ [Call.MarkMiss x y] }
  MarkHit := fun f x y =>
    { f with weight := f.weight - 1, calls := f.calls ++ [Call.MarkHit x y] }
  MarkKill := fun f x y =>
    { f with weight := f.weight - 1, calls := f.calls ++ [Call.MarkKill x y] }
  IsLoser := fun f => f.weight == 0
  PrintDigitLine := " 1 2 3 4 5 6 7 8 9 "
  PrintLine := fun _ i => String.mk [Char.ofNat (65 + i)]

/-- An own board with a single ship, at `x = 0`, `y = 1`. -/
def sampleMine : SampleField := { weight := 1, ships := [(0, 1)], calls := [] }

/-- The model of an opponent with a single ship cell, nothing known yet. -/
def sampleOther : SampleField := { weight := 1, ships := [], calls := [] }

/-- A game in progress: the local player will type the words in `cin`, the
peer will send the bytes in `incoming`. -/
def sampleGame (cin : List (List Byte)) (incoming : List Byte) : Game SampleField :=
  { my_field_ := sampleMine, other_field_ := sampleOther,
    socket := { incoming := incoming, capacity := 16, sent := [] },
    cin := cin, cout := [] }

/-! ## The move codec -/

theorem intToChar_val (n : Int) (h0 : 0 ≤ n) (h1 : n < 256) :
    ((intToChar n).val : Int) = n := by
  simp only [intToChar]
  have h : n % 256 = n := Int.emod_eq_of_lt h0 h1
  rw [h]
  exact Int.toNat_of_nonneg h0

theorem charToInt_intToChar (signedChar : Bool) (n : Int) (h0 : 0 ≤ n) (h1 : n < 128) :
    charToInt signedChar (intToChar n) = n := by
  have hv := intToChar_val n h0 (by omega)
  have hlt : ¬ 128 ≤ (intToChar n).val := by omega
  simp [charToInt, hlt, hv]

theorem charToInt_cases (signedChar : Bool) (b : Byte) :
    charToInt signedChar b = (b.val : Int) ∨
      (128 ≤ b.val ∧ charToInt signedChar b = (b.val : Int) - 256) := by
  unfold charToInt
  by_cases h : 128 ≤ b.val <;> cases signedChar <;> simp [h]

theorem charToInt_small (signedChar : Bool) (b : Byte) (h : b.val < 128) :
    charToInt signedChar b = (b.val : Int) := by
  rcases charToInt_cases signedChar b with h1 | ⟨h1, _⟩
  · exact h1
  · omega

theorem intToChar_coe (b : Byte) : intToChar (b.val : Int) = b := by
  apply Fin.ext
  have := intToChar_val (b.val : Int) (by omega) (by have := b.isLt; omega)
  exact_mod_cast this

/-- What `ParseMove` accepts, and what it returns then. -/
theorem ParseMove_eq_some_iff (signedChar : Bool) (sv : List Byte) (move : Int × Int) :
    ParseMove signedChar sv = some move ↔
      ∃ b0 b1 : Byte, sv = [b0, b1] ∧ 65 ≤ b0.val ∧ b0.val ≤ 73 ∧ 49 ≤ b1.val ∧ b1.val ≤ 57 ∧
        move = ((b0.val : Int) - 65, (b1.val : Int) - 49) := by
  constructor
  · intro h
    match sv, h with
    | [b0, b1], h =>
      refine ⟨b0, b1, rfl, ?_⟩
      simp only [ParseMove, List.length_cons, List.length_nil, chA, ch1] at h
      simp only [List.getD_cons_zero, List.getD_cons_succ] at h
      have hb0 := b0.isLt
      have hb1 := b1.isLt
      rcases charToInt_cases signedChar b0 with e0 | ⟨_, e0⟩ <;>
        rcases charToInt_cases signedChar b1 with e1 | ⟨_, e1⟩ <;>
        rw [e0, e1] at h <;>
        split_ifs at h <;>
        first
          | omega
          | (simp only [Option.some.injEq] at h
             refine ⟨by omega, by omega, by omega, by omega, ?_⟩
             rw [← h])
    | [], h => simp [ParseMove] at h
    | [_], h => simp [ParseMove] at h
    | _ :: _ :: _ :: _, h => simp [ParseMove] at h
  · rintro ⟨b0, b1, rfl, h1, h2, h3, h4, rfl⟩
    have e0 := charToInt_small signedChar b0 (by omega)
    have e1 := charToInt_small signedChar b1 (by omega)
    simp only [ParseMove, List.length_cons, List.length_nil, chA, ch1,
      List.getD_cons_zero, List.getD_cons_succ, e0, e1]
    have c1 : ¬ ((b0.val : Int) - 65 < 0 ∨ (b0.val : Int) - 65 > 8) := by omega
    have c2 : ¬ ((b1.val : Int) - 49 < 0 ∨ (b1.val : Int) - 49 > 8) := by omega
    rw [if_neg (by decide), if_neg c1, if_neg c2]

theorem ParseMove_eq_none_iff (signedChar : Bool) (sv : List Byte) :
    ParseMove signedChar sv = none ↔
      ¬ ∃ b0 b1 : Byte, sv = [b0, b1] ∧ 65 ≤ b0.val ∧ b0.val ≤ 73 ∧ 49 ≤ b1.val ∧ b1.val ≤ 57 := by
  constructor
  · rintro h ⟨b0, b1, hs, h1, h2, h3, h4⟩
    have := (ParseMove_eq_some_iff signedChar sv _).2 ⟨b0, b1, hs, h1, h2, h3, h4, rfl⟩
    rw [h] at this
    exact Option.noConfusion this
  · intro h
    cases hp : ParseMove signedChar sv with
    | none => rfl
    | some move =>
      obtain ⟨b0, b1, hs, h1, h2, h3, h4, _⟩ := (ParseMove_eq_some_iff signedChar sv move).1 hp
      exact absurd ⟨b0, b1, hs, h1, h2, h3, h4⟩ h

/-- Encoding what was decoded gives back the bytes that were decoded. -/
theorem MoveToString_of_ParseMove (signedChar : Bool) (sv : List Byte) (move : Int × Int)
    (h : ParseMove signedChar sv = some move) : MoveToString move = sv := by
  obtain ⟨b0, b1, rfl, h1, h2, h3, h4, rfl⟩ := (ParseMove_eq_some_iff signedChar sv move).1 h
  simp only [MoveToString, chA, ch1]
  have e0 : (65 : Int) + ((b0.val : Int) - 65) = (b0.val : Int) := by omega
  have e1 : (49 : Int) + ((b1.val : Int) - 49) = (b1.val : Int) := by omega
  rw [e0, e1, intToChar_coe, intToChar_coe]

/-- C1. Move round trip: for every col and row in [0,9), on either kind of
platform, `ParseMove (MoveToString (col, row))` returns a value, and the value
is `(col, row)`. -/
theorem ParseMove_MoveToString (signedChar : Bool) (col row : Int)
    (hcol : 0 ≤ col ∧ col < 9) (hrow : 0 ≤ row ∧ row < 9) :
    ParseMove signedChar (MoveToString (col, row)) = some (col, row) := by
  have e0 := charToInt_intToChar signedChar (65 + col) (by omega) (by omega)
  have e1 := charToInt_intToChar signedChar (49 + row) (by omega) (by omega)
  simp only [ParseMove, MoveToString, List.length_cons, List.length_nil, chA, ch1,
    List.getD_cons_zero, List.getD_cons_succ, e0, e1]
  have c1 : ¬ (65 + col - 65 < 0 ∨ 65 + col - 65 > 8) := by omega
  have c2 : ¬ (49 + row - 49 < 0 ∨ 49 + row - 49 > 8) := by omega
  rw [if_neg (by decide), if_neg c1, if_neg c2]
  congr 2 <;> omega

theorem ParseMove_MoveToString_witness :
    (0 ≤ (8 : Int) ∧ (8 : Int) < 9) ∧ (0 ≤ (0 : Int) ∧ (0 : Int) < 9) ∧
      ParseMove true (MoveToString (8, 0)) = some (8, 0) :=
  ⟨by decide, by decide, ParseMove_MoveToString true 8 0 (by decide) (by decide)⟩

/-- C2. Move decoding rejects everything outside the wire alphabet: a byte
string that does not have length exactly 2, or whose first byte is not in
'A'..'I' (65..73), or whose second byte is not in '1'..'9' (49..57), is
rejected by `ParseMove`, for every byte value and whether `char` is signed or
not. -/
theorem ParseMove_rejects (signedChar : Bool) (s : List Byte)
    (h : s.length ≠ 2 ∨
      (∃ b : Byte, s[0]? = some b ∧ ¬ (65 ≤ b.val ∧ b.val ≤ 73)) ∨
      (∃ b : Byte, s[1]? = some b ∧ ¬ (49 ≤ b.val ∧ b.val ≤ 57))) :
    ParseMove signedChar s = none := by
  rw [ParseMove_eq_none_iff]
  rintro ⟨b0, b1, rfl, h1, h2, h3, h4⟩
  rcases h with h | ⟨b, hb, hn⟩ | ⟨b, hb, hn⟩
  · exact h rfl
  · simp only [List.getElem?_cons_zero, Option.some.injEq] at hb
    subst hb
    exact hn ⟨h1, h2⟩
  · simp only [List.getElem?_cons_succ, List.getElem?_cons_zero, Option.some.injEq] at hb
    subst hb
    exact hn ⟨h3, h4⟩

theorem ParseMove_rejects_witness :
    (∃ b : Byte, ([65, 200] : List Byte)[1]? = some b ∧ ¬ (49 ≤ b.val ∧ b.val ≤ 57)) ∧
      ParseMove true [65, 200] = none :=
  ⟨⟨200, rfl, by decide⟩,
    ParseMove_rejects true [65, 200] (Or.inr (Or.inr ⟨200, rfl, by decide⟩))⟩

/-! ## The result codec -/

theorem ReadExact_one (socket : Socket) (b : Byte) (rest : List Byte)
    (h : socket.incoming = b :: rest) :
    ReadExact 1 socket = (some [b], socket.consumed rest) := by
  simp [ReadExact, h, Socket.consumed]

theorem ReadExact_two (socket : Socket) (b0 b1 : Byte) (rest : List Byte)
    (h : socket.incoming = b0 :: b1 :: rest) :
    ReadExact 2 socket = (some [b0, b1], socket.consumed rest) := by
  simp [ReadExact, h, Socket.consumed]

theorem ReadResult_cons {F : Type} (signedChar : Bool) (g : Game F) (b : Byte)
    (rest : List Byte) (h : g.socket.incoming = b :: rest) :
    ReadResult signedChar g =
      if charToInt signedChar b < 0 ∨ charToInt signedChar b > 2 then
        .thrown "Invalid shoot received: " (g.received rest)
      else
        .ok (ShotResult.ofInt (charToInt signedChar b)) (g.received rest) := by
  simp only [ReadResult, ReadExact_one g.socket b rest h, List.getD_cons_zero, Game.received]

theorem ReadResult_valid {F : Type} (signedChar : Bool) (g : Game F) (b : Byte)
    (rest : List Byte) (h : g.socket.incoming = b :: rest) (hb : b.val ≤ 2) :
    ReadResult signedChar g = .ok (ShotResult.ofInt (b.val : Int)) (g.received rest) := by
  rw [ReadResult_cons signedChar g b rest h, charToInt_small signedChar b (by omega)]
  rw [if_neg (by omega)]

theorem ReadResult_invalid {F : Type} (signedChar : Bool) (g : Game F) (b : Byte)
    (rest : List Byte) (h : g.socket.incoming = b :: rest) (hb : 2 < b.val) :
    ReadResult signedChar g = .thrown "Invalid shoot received: " (g.received rest) := by
  rw [ReadResult_cons signedChar g b rest h]
  have hlt := b.isLt
  rcases charToInt_cases signedChar b with e | ⟨h128, e⟩ <;> rw [e] <;> rw [if_pos (by omega)]

theorem SendResult_ok {F : Type} (g : Game F) (result : ShotResult)
    (h : 1 ≤ g.socket.capacity) :
    SendResult g result = .ok () (g.wrote [intToChar result.toInt]) := by
  simp [SendResult, WriteExact, h, Game.wrote]

theorem SendMove_ok {F : Type} (g : Game F) (move : Int × Int)
    (h : 2 ≤ g.socket.capacity) :
    SendMove g move = .ok () (g.wrote (MoveToString move)) := by
  simp [SendMove, WriteExact, MoveToString, h, Game.wrote]

theorem ofInt_toInt (r : ShotResult) : ShotResult.ofInt r.toInt = r := by
  cases r <;> rfl

theorem intToChar_toInt_val (r : ShotResult) : ((intToChar r.toInt).val : Int) = r.toInt := by
  cases r <;> rfl

/-- C3. Result decoding fails exactly on bytes outside 0, 1, 2: when the byte
`b` is received, `ReadResult` throws iff `b` is none of 0, 1, 2 (whether
`char` is signed or not), returns MISS for 0, HIT for 1 and KILL for 2, and
decodes the byte that `SendResult` writes for a result `r` back to `r`. -/
theorem ReadResult_spec {F G : Type} (signedChar : Bool) (g : Game F) (b : Byte)
    (rest : List Byte) (h : g.socket.incoming = b :: rest) :
    ((ReadResult signedChar g).isThrown = true ↔ ¬ (b.val = 0 ∨ b.val = 1 ∨ b.val = 2)) ∧
    (b.val = 0 → ReadResult signedChar g = .ok .MISS (g.received rest)) ∧
    (b.val = 1 → ReadResult signedChar g = .ok .HIT (g.received rest)) ∧
    (b.val = 2 → ReadResult signedChar g = .ok .KILL (g.received rest)) ∧
    (∀ (peer : Game G) (r : ShotResult), 1 ≤ peer.socket.capacity →
      ∃ peer1 : Game G, SendResult peer r = .ok () peer1 ∧
        peer1.socket.sent = peer.socket.sent ++ [intToChar r.toInt] ∧
        (b = intToChar r.toInt → ReadResult signedChar g = .ok r (g.received rest))) := by
  refine ⟨?_, ?_, ?_, ?_, ?_⟩
  · by_cases hb : b.val ≤ 2
    · rw [ReadResult_valid signedChar g b rest h hb]
      simp only [Res.isThrown, Bool.false_eq_true, false_iff, not_not]
      omega
    · rw [ReadResult_invalid signedChar g b rest h (by omega)]
      simp only [Res.isThrown, true_iff]
      omega
  · intro hb
    rw [ReadResult_valid signedChar g b rest h (by omega), hb]
    rfl
  · intro hb
    rw [ReadResult_valid signedChar g b rest h (by omega), hb]
    rfl
  · intro hb
    rw [ReadResult_valid signedChar g b rest h (by omega), hb]
    rfl
  · intro peer r hcap
    refine ⟨peer.wrote [intToChar r.toInt], SendResult_ok peer r hcap, rfl, ?_⟩
    intro hb
    have hv := intToChar_toInt_val r
    have hr : r.toInt ≤ 2 := by cases r <;> decide
    have hr0 : 0 ≤ r.toInt := by cases r <;> decide
    rw [ReadResult_valid signedChar g b rest h (by rw [hb]; omega), hb, hv, ofInt_toInt]

theorem ReadResult_spec_witness :
    (sampleGame [] [200]).socket.incoming = [200] ∧
    (ReadResult true (sampleGame [] [200])).isThrown = true ∧
    (ReadResult false (sampleGame [] [5])).isThrown = true ∧
    ReadResult true (sampleGame [] [1, 7]) = .ok .HIT ((sampleGame [] [1, 7]).received [7]) :=
  ⟨rfl,
    (ReadResult_spec (G := SampleField) true (sampleGame [] [200]) 200 [] rfl).1.2 (by decide),
    (ReadResult_spec (G := SampleField) false (sampleGame [] [5]) 5 [] rfl).1.2 (by decide),
    (ReadResult_spec (G := SampleField) true (sampleGame [] [1, 7]) 1 [7] rfl).2.2.1 rfl⟩

/-! ## The turn loop -/

theorem PrintFields_my {F : Type} (ops : FieldOps F) (g : Game F) :
    (PrintFields ops g).my_field_ = g.my_field_ := rfl

theorem PrintFields_other {F : Type} (ops : FieldOps F) (g : Game F) :
    (PrintFields ops g).other_field_ = g.other_field_ := rfl

theorem PrintFields_socket {F : Type} (ops : FieldOps F) (g : Game F) :
    (PrintFields ops g).socket = g.socket := rfl

theorem PrintFields_cin {F : Type} (ops : FieldOps F) (g : Game F) :
    (PrintFields ops g).cin = g.cin := rfl

theorem print_my {F : Type} (g : Game F) (s : String) :
    (g.print s).my_field_ = g.my_field_ := rfl

theorem print_other {F : Type} (g : Game F) (s : String) :
    (g.print s).other_field_ = g.other_field_ := rfl

theorem print_socket {F : Type} (g : Game F) (s : String) :
    (g.print s).socket = g.socket := rfl

theorem print_cin {F : Type} (g : Game F) (s : String) :
    (g.print s).cin = g.cin := rfl

theorem readWord_my {F : Type} (g : Game F) :
    g.readWord.2.my_field_ = g.my_field_ := by
  unfold Game.readWord; split <;> rfl

theorem readWord_other {F : Type} (g : Game F) :
    g.readWord.2.other_field_ = g.other_field_ := by
  unfold Game.readWord; split <;> rfl

theorem readWord_socket {F : Type} (g : Game F) :
    g.readWord.2.socket = g.socket := by
  unfold Game.readWord; split <;> rfl

theorem readWord_word {F : Type} (g h : Game F) (hc : h.cin = g.cin) :
    h.readWord.1 = g.readWord.1 := by
  unfold Game.readWord; rw [hc]; split <;> rfl

/-- The local turn, with the word read from `std::cin` named. -/
theorem localTurn_eq {F : Type} (ops : FieldOps F) (signedChar : Bool) (g : Game F)
    (my_initiative : Bool) :
    localTurn ops signedChar g my_initiative =
      match ParseMove signedChar g.readWord.1 with
      | none =>
        .ok my_initiative ((g.print "Your turn: ").readWord.2.print "Wrong input, try again\n")
      | some move =>
        match SendMove (g.print "Your turn: ").readWord.2 move with
        | .thrown what g1 => .thrown what g1
        | .ok () g1 =>
          match ReadResult signedChar g1 with
          | .thrown what g2 => .thrown what g2
          | .ok result g2 =>
            match result with
            | .MISS =>
              .ok false { g2.print "Miss!\n" with
                other_field_ := ops.MarkMiss g2.other_field_ move.2 move.1 }
            | .HIT =>
              .ok my_initiative { g2.print "Hit!\n" with
                other_field_ := ops.MarkHit g2.other_field_ move.2 move.1 }
            | .KILL =>
              .ok my_initiative { g2.print "Kill!\n" with
                other_field_ := ops.MarkKill g2.other_field_ move.2 move.1 } := by
  have hw : (g.print "Your turn: ").readWord.1 = g.readWord.1 := readWord_word g _ rfl
  unfold localTurn
  simp only [← hw]
  rfl

/-- C5. Malformed local input is a pure local retry: in a local turn, when
`ParseMove` rejects the word typed, the iteration returns without error, the
socket is as before (nothing sent, nothing read), both boards are unchanged
and the initiative flag is still true. -/
theorem loopBody_malformed_input {F : Type} (ops : FieldOps F) (signedChar : Bool)
    (g : Game F) (h : ParseMove signedChar g.readWord.1 = none) :
    ∃ g1 : Game F, loopBody ops signedChar g true = .ok true g1 ∧
      g1.socket = g.socket ∧ g1.socket.sent = g.socket.sent ∧
      g1.socket.incoming = g.socket.incoming ∧
      g1.my_field_ = g.my_field_ ∧ g1.other_field_ = g.other_field_ := by
  have hw : (PrintFields ops g).readWord.1 = g.readWord.1 := readWord_word g _ rfl
  refine ⟨(((PrintFields ops g).print "Your turn: ").readWord.2.print
    "Wrong input, try again\n"), ?_, ?_⟩
  · simp only [loopBody, if_true]
    rw [localTurn_eq, hw, h]
  · simp [print_my, print_other, print_socket, readWord_my, readWord_other, readWord_socket,
      PrintFields_my, PrintFields_other, PrintFields_socket]

theorem loopBody_malformed_input_witness :
    ParseMove true (sampleGame [[90, 57]] [0]).readWord.1 = none ∧
    ∃ g1 : Game SampleField,
      loopBody sampleOps true (sampleGame [[90, 57]] [0]) true = .ok true g1 ∧
      g1.socket = (sampleGame [[90, 57]] [0]).socket ∧
      g1.socket.sent = (sampleGame [[90, 57]] [0]).socket.sent ∧
      g1.socket.incoming = (sampleGame [[90, 57]] [0]).socket.incoming ∧
      g1.my_field_ = (sampleGame [[90, 57]] [0]).my_field_ ∧
      g1.other_field_ = (sampleGame [[90, 57]] [0]).other_field_ :=
  ⟨by decide, loopBody_malformed_input sampleOps true (sampleGame [[90, 57]] [0]) (by decide)⟩

theorem received_my {F : Type} (g : Game F) (rest : List Byte) :
    (g.received rest).my_field_ = g.my_field_ := rfl

theorem received_other {F : Type} (g : Game F) (rest : List Byte) :
    (g.received rest).other_field_ = g.other_field_ := rfl

theorem received_sent {F : Type} (g : Game F) (rest : List Byte) :
    (g.received rest).socket.sent = g.socket.sent := rfl

theorem received_capacity {F : Type} (g : Game F) (rest : List Byte) :
    (g.received rest).socket.capacity = g.socket.capacity := rfl

theorem received_incoming {F : Type} (g : Game F) (rest : List Byte) :
    (g.received rest).socket.incoming = rest := rfl

theorem wrote_my {F : Type} (g : Game F) (data : List Byte) :
    (g.wrote data).my_field_ = g.my_field_ := rfl

theorem wrote_other {F : Type} (g : Game F) (data : List Byte) :
    (g.wrote data).other_field_ = g.other_field_ := rfl

theorem wrote_sent {F : Type} (g : Game F) (data : List Byte) :
    (g.wrote data).socket.sent = g.socket.sent ++ data := rfl

theorem wrote_incoming {F : Type} (g : Game F) (data : List Byte) :
    (g.wrote data).socket.incoming = g.socket.incoming := rfl

theorem ReadMove_cons {F : Type} (signedChar : Bool) (g : Game F) (b0 b1 : Byte)
    (rest : List Byte) (h : g.socket.incoming = b0 :: b1 :: rest) :
    ReadMove signedChar g =
      match ParseMove signedChar [b0, b1] with
      | none =>
        .thrown ("Invalid move received: " ++ bytesToString [b0, b1]) (g.received rest)
      | some move => .ok move (g.received rest) := by
  simp only [ReadMove, ReadExact_two g.socket b0 b1 rest h, Game.received]

/-- The remote turn when the peer's two bytes are in the wire alphabet and
`Shoot` returns. -/
theorem remoteTurn_valid {F : Type} (ops : FieldOps F) (signedChar : Bool) (g : Game F)
    (my_initiative : Bool) (b0 b1 : Byte) (rest : List Byte)
    (hin : g.socket.incoming = b0 :: b1 :: rest)
    (h0 : 65 ≤ b0.val ∧ b0.val ≤ 73) (h1 : 49 ≤ b1.val ∧ b1.val ≤ 57)
    (result : ShotResult) (field : F)
    (hs : ops.Shoot g.my_field_ ((b1.val : Int) - 49) ((b0.val : Int) - 65)
      = .ok (result, field))
    (hcap : 1 ≤ g.socket.capacity) :
    remoteTurn ops signedChar g my_initiative =
      .ok (if result = ShotResult.MISS then true else my_initiative)
        (((({ (g.print "Waiting for turn...\n").received rest with my_field_ := field }.print
          "Shoot to ").print (bytesToString [b0, b1])).print "\n").wrote
            [intToChar result.toInt]) := by
  have hp : ParseMove signedChar [b0, b1]
      = some ((b0.val : Int) - 65, (b1.val : Int) - 49) :=
    (ParseMove_eq_some_iff signedChar _ _).2 ⟨b0, b1, rfl, h0.1, h0.2, h1.1, h1.2, rfl⟩
  have hm := MoveToString_of_ParseMove signedChar _ _ hp
  unfold remoteTurn
  simp only [ReadMove_cons signedChar (g.print "Waiting for turn...\n") b0 b1 rest hin, hp,
    received_my, print_my, hs, hm]
  rw [SendResult_ok _ _ (by simpa using hcap)]

/-- C6. A malformed remote move is fatal and has no effect: in a remote turn,
when the two bytes received are not in [A-I][1-9], `ReadMove` throws, the
iteration and with it `StartGame` end with that exception, both boards are
as before (so `Shoot` was not applied to the own board) and no byte was
sent. -/
theorem loopBody_malformed_remote_move {F : Type} (ops : FieldOps F) (signedChar : Bool)
    (g : Game F) (b0 b1 : Byte) (rest : List Byte)
    (hin : g.socket.incoming = b0 :: b1 :: rest)
    (hbad : ¬ ((65 ≤ b0.val ∧ b0.val ≤ 73) ∧ (49 ≤ b1.val ∧ b1.val ≤ 57))) :
    (ReadMove signedChar g).isThrown = true ∧
    ∃ (what : String) (g1 : Game F),
      loopBody ops signedChar g false = .thrown what g1 ∧
      (∀ fuel : Nat, IsGameEnded ops g = false →
        StartGame ops signedChar (fuel + 1) g false = some (.thrown what g1)) ∧
      g1.my_field_ = g.my_field_ ∧ g1.other_field_ = g.other_field_ ∧
      g1.socket.sent = g.socket.sent := by
  have hp : ParseMove signedChar [b0, b1] = none := by
    rw [ParseMove_eq_none_iff]
    rintro ⟨c0, c1, hs, h1, h2, h3, h4⟩
    simp only [List.cons.injEq, and_true] at hs
    obtain ⟨rfl, rfl⟩ := hs
    exact hbad ⟨⟨h1, h2⟩, ⟨h3, h4⟩⟩
  have hbody : loopBody ops signedChar g false =
      .thrown ("Invalid move received: " ++ bytesToString [b0, b1])
        (((PrintFields ops g).print "Waiting for turn...\n").received rest) := by
    simp only [loopBody, Bool.false_eq_true, if_false, remoteTurn]
    rw [ReadMove_cons signedChar _ b0 b1 rest (by simpa using hin), hp]
  refine ⟨?_, _, _, hbody, ?_, ?_⟩
  · rw [ReadMove_cons signedChar g b0 b1 rest hin, hp]
    rfl
  · intro fuel hend
    simp only [StartGame, hend, Bool.false_eq_true, if_false, hbody]
  · simp [received_my, received_other, received_sent, print_my, print_other, print_socket,
      PrintFields_my, PrintFields_other, PrintFields_socket]

theorem loopBody_malformed_remote_move_witness :
    (sampleGame [] [90, 57]).socket.incoming = [90, 57] ∧
    (¬ ((65 ≤ (90 : Byte).val ∧ (90 : Byte).val ≤ 73) ∧
        (49 ≤ (57 : Byte).val ∧ (57 : Byte).val ≤ 57))) ∧
    (ReadMove true (sampleGame [] [90, 57])).isThrown = true ∧
    ∃ (what : String) (g1 : Game SampleField),
      loopBody sampleOps true (sampleGame [] [90, 57]) false = .thrown what g1 ∧
      (∀ fuel : Nat, IsGameEnded sampleOps (sampleGame [] [90, 57]) = false →
        StartGame sampleOps true (fuel + 1) (sampleGame [] [90, 57]) false
          = some (.thrown what g1)) ∧
      g1.my_field_ = (sampleGame [] [90, 57]).my_field_ ∧
      g1.other_field_ = (sampleGame [] [90, 57]).other_field_ ∧
      g1.socket.sent = (sampleGame [] [90, 57]).socket.sent :=
  ⟨rfl, by decide,
    loopBody_malformed_remote_move sampleOps true (sampleGame [] [90, 57]) 90 57 [] rfl
      (by decide)⟩

theorem wire_bytes (col row : Int) (hcol : 0 ≤ col ∧ col < 9) (hrow : 0 ≤ row ∧ row < 9) :
    (65 ≤ (intToChar (chA + col)).val ∧ (intToChar (chA + col)).val ≤ 73) ∧
    (49 ≤ (intToChar (ch1 + row)).val ∧ (intToChar (ch1 + row)).val ≤ 57) ∧
    ((intToChar (chA + col)).val : Int) - 65 = col ∧
    ((intToChar (ch1 + row)).val : Int) - 49 = row := by
  have e0 := intToChar_val (chA + col) (by unfold chA; omega) (by unfold chA; omega)
  have e1 := intToChar_val (ch1 + row) (by unfold ch1; omega) (by unfold ch1; omega)
  unfold chA at e0 ⊢
  unfold ch1 at e1 ⊢
  omega

/-- C9, as amended. Remote-turn coordinate order: when the bytes received are
byte0 = 'A' + col and byte1 = '1' + row with col and row in [0,9), the engine
calls the own board's `Shoot` with row (the digit index) as its first argument
and col (the letter index) as its second, keeps the board that call leaves,
and sends the one-byte encoding of the result that call returns. -/
theorem loopBody_remote_shoot {F : Type} (ops : FieldOps F) (signedChar : Bool)
    (g : Game F) (col row : Int) (rest : List Byte)
    (hcol : 0 ≤ col ∧ col < 9) (hrow : 0 ≤ row ∧ row < 9)
    (hin : g.socket.incoming = intToChar (chA + col) :: intToChar (ch1 + row) :: rest)
    (result : ShotResult) (field : F)
    (hs : ops.Shoot g.my_field_ row col = .ok (result, field))
    (hcap : 1 ≤ g.socket.capacity) :
    ∃ g1 : Game F,
      loopBody ops signedChar g false
        = .ok (if result = ShotResult.MISS then true else false) g1 ∧
      g1.my_field_ = field ∧ g1.other_field_ = g.other_field_ ∧
      g1.socket.sent = g.socket.sent ++ [intToChar result.toInt] ∧
      g1.socket.incoming = rest := by
  obtain ⟨h0, h1, e0, e1⟩ := wire_bytes col row hcol hrow
  have hbody := remoteTurn_valid ops signedChar (PrintFields ops g) false _ _ rest
    (by simpa using hin) h0 h1 result field (by rw [e0, e1]; simpa using hs)
    (by simpa using hcap)
  have hloop : loopBody ops signedChar g false
      = remoteTurn ops signedChar (PrintFields ops g) false := by
    simp only [loopBody, Bool.false_eq_true, if_false]
  rw [hbody] at hloop
  exact ⟨_, hloop, rfl, rfl, by simp [wrote_sent, print_socket, received_sent,
    PrintFields_socket], rfl⟩

theorem loopBody_remote_shoot_witness :
    (sampleGame [] [66, 49]).socket.incoming = [intToChar (chA + 1), intToChar (ch1 + 0)] ∧
    sampleOps.Shoot (sampleGame [] [66, 49]).my_field_ 0 1
      = .ok (ShotResult.KILL, { weight := 0, ships := [], calls := [Call.Shoot 0 1] }) ∧
    ∃ g1 : Game SampleField,
      loopBody sampleOps true (sampleGame [] [66, 49]) false
        = .ok (if ShotResult.KILL = ShotResult.MISS then true else false) g1 ∧
      g1.my_field_ = { weight := 0, ships := [], calls := [Call.Shoot 0 1] } ∧
      g1.other_field_ = (sampleGame [] [66, 49]).other_field_ ∧
      g1.socket.sent = (sampleGame [] [66, 49]).socket.sent ++ [intToChar ShotResult.KILL.toInt] ∧
      g1.socket.incoming = [] :=
  ⟨by decide, rfl,
    loopBody_remote_shoot sampleOps true (sampleGame [] [66, 49]) 1 0 []
      (by decide) (by decide) (by decide) ShotResult.KILL
      { weight := 0, ships := [], calls := [Call.Shoot 0 1] } rfl (by decide)⟩

/-- C9, as stated, fails. The peer sends "B1", that is byte0 = 'A' + 1 and
byte1 = '1' + 0, so col = 1 and row = 0.  `Shoot(col, row) = Shoot(1, 0)` on
the own board would miss and leave the fleet intact, and the byte for MISS is
0; but no run of the iteration ends with that board and that byte: the engine
calls `Shoot(0, 1)`, sinks the ship there and sends 2. -/
theorem loopBody_remote_shoot_col_row_fails :
    (sampleGame [] [66, 49]).socket.incoming = [intToChar (chA + 1), intToChar (ch1 + 0)] ∧
    sampleOps.Shoot sampleMine 1 0
      = .ok (ShotResult.MISS, { weight := 1, ships := [(0, 1)], calls := [Call.Shoot 1 0] }) ∧
    (¬ ∃ (flag : Bool) (g1 : Game SampleField),
        loopBody sampleOps true (sampleGame [] [66, 49]) false = .ok flag g1 ∧
        g1.my_field_ = { weight := 1, ships := [(0, 1)], calls := [Call.Shoot 1 0] } ∧
        g1.socket.sent = [intToChar ShotResult.MISS.toInt]) ∧
    (loopBody sampleOps true (sampleGame [] [66, 49]) false).game.my_field_
      = { weight := 0, ships := [], calls := [Call.Shoot 0 1] } ∧
    (loopBody sampleOps true (sampleGame [] [66, 49]) false).game.socket.sent = [2] := by
  refine ⟨by decide, rfl, ?_, by decide, by decide⟩
  rintro ⟨flag, g1, hbody, -, hsent⟩
  have hrun : (loopBody sampleOps true (sampleGame [] [66, 49]) false).game.socket.sent
      = [2] := by decide
  rw [hbody] at hrun
  simp only [Res.game] at hrun
  rw [hrun] at hsent
  revert hsent
  decide

/-- The local turn when the word typed is a move, the move can be written and
the peer answers with a byte in 0, 1, 2. -/
theorem localTurn_valid {F : Type} (ops : FieldOps F) (signedChar : Bool) (g : Game F)
    (my_initiative : Bool) (move : Int × Int) (b : Byte) (rest : List Byte)
    (hp : ParseMove signedChar g.readWord.1 = some move)
    (hcap : 2 ≤ g.socket.capacity)
    (hin : g.socket.incoming = b :: rest) (hb : b.val ≤ 2) :
    localTurn ops signedChar g my_initiative =
      match ShotResult.ofInt (b.val : Int) with
      | .MISS =>
        .ok false
          { (((g.print "Your turn: ").readWord.2.wrote (MoveToString move)).received
              rest).print "Miss!\n" with
            other_field_ := ops.MarkMiss g.other_field_ move.2 move.1 }
      | .HIT =>
        .ok my_initiative
          { (((g.print "Your turn: ").readWord.2.wrote (MoveToString move)).received
              rest).print "Hit!\n" with
            other_field_ := ops.MarkHit g.other_field_ move.2 move.1 }
      | .KILL =>
        .ok my_initiative
          { (((g.print "Your turn: ").readWord.2.wrote (MoveToString move)).received
              rest).print "Kill!\n" with
            other_field_ := ops.MarkKill g.other_field_ move.2 move.1 } := by
  rw [localTurn_eq, hp]
  simp only []
  rw [SendMove_ok _ _ (by simpa [readWord_socket, print_socket] using hcap)]
  simp only []
  rw [ReadResult_valid signedChar _ b rest
    (by simpa [wrote_incoming, readWord_socket, print_socket] using hin) hb]
  simp only [received_other, wrote_other, readWord_other, print_other]

theorem ofInt_cases (b : Byte) (hb : b.val ≤ 2) :
    (b.val = 0 ∧ ShotResult.ofInt (b.val : Int) = .MISS) ∨
    (b.val = 1 ∧ ShotResult.ofInt (b.val : Int) = .HIT) ∨
    (b.val = 2 ∧ ShotResult.ofInt (b.val : Int) = .KILL) := by
  have h : b.val = 0 ∨ b.val = 1 ∨ b.val = 2 := by omega
  rcases h with h | h | h <;> rw [h] <;> simp [ShotResult.ofInt]

/-- One pass through the loop body in a local turn with a well-formed move and
a well-formed answer. -/
theorem loopBody_local_valid {F : Type} (ops : FieldOps F) (signedChar : Bool) (g : Game F)
    (input : List Byte) (more : List (List Byte)) (move : Int × Int)
    (b : Byte) (rest : List Byte)
    (hcin : g.cin = input :: more)
    (hp : ParseMove signedChar input = some move)
    (hcap : 2 ≤ g.socket.capacity)
    (hin : g.socket.incoming = b :: rest) (hb : b.val ≤ 2) :
    loopBody ops signedChar g true =
      match ShotResult.ofInt (b.val : Int) with
      | .MISS =>
        .ok false
          { ((((PrintFields ops g).print "Your turn: ").readWord.2.wrote
              (MoveToString move)).received rest).print "Miss!\n" with
            other_field_ := ops.MarkMiss g.other_field_ move.2 move.1 }
      | .HIT =>
        .ok true
          { ((((PrintFields ops g).print "Your turn: ").readWord.2.wrote
              (MoveToString move)).received rest).print "Hit!\n" with
            other_field_ := ops.MarkHit g.other_field_ move.2 move.1 }
      | .KILL =>
        .ok true
          { ((((PrintFields ops g).print "Your turn: ").readWord.2.wrote
              (MoveToString move)).received rest).print "Kill!\n" with
            other_field_ := ops.MarkKill g.other_field_ move.2 move.1 } := by
  have hword : (PrintFields ops g).readWord.1 = input := by
    simp [Game.readWord, hcin, PrintFields_cin]
  have hloop : loopBody ops signedChar g true
      = localTurn ops signedChar (PrintFields ops g) true := by
    simp only [loopBody, if_true]
  rw [localTurn_valid ops signedChar (PrintFields ops g) true move b rest
    (by rw [hword]; exact hp) (by simpa using hcap) (by simpa using hin) hb] at hloop
  exact hloop

/-- C8. Local turn on a well-formed move: when `ParseMove` accepts the word
typed and the peer answers with a byte in 0, 1, 2, the engine sends exactly
the two bytes `MoveToString move`, which are the word typed, then applies one
`Mark` operation to the opponent-model board with the arguments
`(move.second, move.first)`: `MarkMiss` for 0 (MISS), `MarkHit` for 1 (HIT),
`MarkKill` for 2 (KILL); the own board is not touched, and the initiative is
given up exactly on MISS. -/
theorem loopBody_local_move {F : Type} (ops : FieldOps F) (signedChar : Bool) (g : Game F)
    (input : List Byte) (more : List (List Byte)) (move : Int × Int)
    (b : Byte) (rest : List Byte)
    (hcin : g.cin = input :: more)
    (hp : ParseMove signedChar input = some move)
    (hcap : 2 ≤ g.socket.capacity)
    (hin : g.socket.incoming = b :: rest) (hb : b.val ≤ 2) :
    MoveToString move = input ∧ input.length = 2 ∧
    ∃ (flag : Bool) (g1 : Game F),
      loopBody ops signedChar g true = .ok flag g1 ∧
      g1.socket.sent = g.socket.sent ++ input ∧
      g1.socket.incoming = rest ∧
      g1.my_field_ = g.my_field_ ∧
      (b.val = 0 → g1.other_field_ = ops.MarkMiss g.other_field_ move.2 move.1) ∧
      (b.val = 1 → g1.other_field_ = ops.MarkHit g.other_field_ move.2 move.1) ∧
      (b.val = 2 → g1.other_field_ = ops.MarkKill g.other_field_ move.2 move.1) ∧
      (flag = false ↔ b.val = 0) := by
  have hstr := MoveToString_of_ParseMove signedChar input move hp
  have hlen : input.length = 2 := by rw [← hstr]; rfl
  have hloop := loopBody_local_valid ops signedChar g input more move b rest hcin hp hcap hin hb
  refine ⟨hstr, hlen, ?_⟩
  rcases ofInt_cases b hb with ⟨hv, ho⟩ | ⟨hv, ho⟩ | ⟨hv, ho⟩ <;>
    rw [ho] at hloop <;> simp only [] at hloop <;>
    refine ⟨_, _, hloop, ?_, rfl, ?_, ?_, ?_, ?_, ?_⟩ <;>
    simp [hv, hstr, print_my, print_socket, received_my, received_sent, wrote_my, wrote_sent,
      readWord_my, readWord_socket, PrintFields_my, PrintFields_socket]

theorem loopBody_local_move_witness :
    ParseMove true [65, 50] = some (0, 1) ∧
    MoveToString (0, 1) = [65, 50] ∧ ([65, 50] : List Byte).length = 2 ∧
    ∃ (flag : Bool) (g1 : Game SampleField),
      loopBody sampleOps true (sampleGame [[65, 50]] [2]) true = .ok flag g1 ∧
      g1.socket.sent = (sampleGame [[65, 50]] [2]).socket.sent ++ [65, 50] ∧
      g1.socket.incoming = [] ∧
      g1.my_field_ = (sampleGame [[65, 50]] [2]).my_field_ ∧
      (((2 : Byte).val = 0) → g1.other_field_
        = sampleOps.MarkMiss (sampleGame [[65, 50]] [2]).other_field_ (0, 1).2 (0, 1).1) ∧
      (((2 : Byte).val = 1) → g1.other_field_
        = sampleOps.MarkHit (sampleGame [[65, 50]] [2]).other_field_ (0, 1).2 (0, 1).1) ∧
      (((2 : Byte).val = 2) → g1.other_field_
        = sampleOps.MarkKill (sampleGame [[65, 50]] [2]).other_field_ (0, 1).2 (0, 1).1) ∧
      (flag = false ↔ (2 : Byte).val = 0) :=
  ⟨by decide,
    loopBody_local_move sampleOps true (sampleGame [[65, 50]] [2]) [65, 50] [] (0, 1) 2 []
      rfl (by decide) (by decide) rfl (by decide)⟩

/-- C4. Turn alternation: in every iteration of the loop of `StartGame` that
completes without error, the initiative flag after the iteration differs from
the flag before it iff the shot result handled in the iteration is MISS; on
HIT, on KILL and when no result is handled the flag is unchanged. -/
theorem loopBody_initiative {F : Type} (ops : FieldOps F) (signedChar : Bool) (g : Game F)
    (my_initiative flag : Bool) (g1 : Game F)
    (h : loopBody ops signedChar g my_initiative = .ok flag g1) :
    flag ≠ my_initiative ↔
      handledResult ops signedChar g my_initiative = some ShotResult.MISS := by
  cases my_initiative
  · simp only [loopBody, handledResult, remoteTurn, Bool.false_eq_true, if_false] at h ⊢
    split at h
    · exact absurd h (by simp)
    · split at h
      · exact absurd h (by simp)
      · split at h
        · exact absurd h (by simp)
        · simp only [Res.ok.injEq] at h
          rw [← h.1]
          rename_i result _ _ _ _ _
          cases result <;> simp
  · simp only [loopBody, handledResult, localTurn, if_true] at h ⊢
    split at h
    · simp only [Res.ok.injEq] at h
      simp [← h.1]
    · split at h
      · exact absurd h (by simp)
      · split at h
        · exact absurd h (by simp)
        · split at h <;> simp only [Res.ok.injEq] at h <;> simp [← h.1]

theorem loopBody_initiative_witness :
    loopBody sampleOps true (sampleGame [] [65, 49]) false
      = .ok true (loopBody sampleOps true (sampleGame [] [65, 49]) false).game ∧
    ((true ≠ false) ↔
      handledResult sampleOps true (sampleGame [] [65, 49]) false = some ShotResult.MISS) ∧
    loopBody sampleOps true (sampleGame [[65, 50]] [2]) true
      = .ok true (loopBody sampleOps true (sampleGame [[65, 50]] [2]) true).game ∧
    ((true ≠ true) ↔
      handledResult sampleOps true (sampleGame [[65, 50]] [2]) true = some ShotResult.MISS) :=
  ⟨rfl,
    loopBody_initiative sampleOps true (sampleGame [] [65, 49]) false true _ rfl,
    rfl,
    loopBody_initiative sampleOps true (sampleGame [[65, 50]] [2]) true true _ rfl⟩

theorem StartGame_ok_ended {F : Type} (ops : FieldOps F) (signedChar : Bool) :
    ∀ (fuel : Nat) (g : Game F) (my_initiative : Bool) (g2 : Game F),
      StartGame ops signedChar fuel g my_initiative = some (.ok () g2) →
      ∃ g1 : Game F, IsGameEnded ops g1 = true ∧ g2 = gameOver ops g1 := by
  intro fuel
  induction fuel with
  | zero =>
    intro g my_initiative g2 h
    simp [StartGame] at h
  | succ fuel ih =>
    intro g my_initiative g2 h
    by_cases hend : IsGameEnded ops g = true
    · simp only [StartGame, hend, if_true, Option.some.injEq, Res.ok.injEq, true_and] at h
      exact ⟨g, hend, h.symm⟩
    · simp only [StartGame, hend, Bool.false_eq_true, if_false] at h
      split at h
      · simp at h
      · exact ih _ _ _ h

/-- C7. Game-over report: `StartGame` goes through the loop body only while
neither the own board nor the opponent-model board `IsLoser`; once one of them
is, it returns after printing the boards and "Game over! " followed by
"You lose." when the own board `IsLoser` and by "You win!" otherwise, in
particular "You win!" when only the opponent-model board is exhausted; and
every run of `StartGame` that returns ends this way. -/
theorem StartGame_report {F : Type} (ops : FieldOps F) (signedChar : Bool) :
    (∀ g : Game F, IsGameEnded ops g = true ↔
      (ops.IsLoser g.my_field_ = true ∨ ops.IsLoser g.other_field_ = true)) ∧
    (∀ (fuel : Nat) (g : Game F) (my_initiative : Bool), IsGameEnded ops g = true →
      StartGame ops signedChar (fuel + 1) g my_initiative = some (.ok () (gameOver ops g))) ∧
    (∀ (fuel : Nat) (g : Game F) (my_initiative : Bool), IsGameEnded ops g = false →
      StartGame ops signedChar (fuel + 1) g my_initiative =
        match loopBody ops signedChar g my_initiative with
        | .thrown what g1 => some (.thrown what g1)
        | .ok flag g1 => StartGame ops signedChar fuel g1 flag) ∧
    (∀ (fuel : Nat) (g : Game F) (my_initiative : Bool) (g2 : Game F),
      StartGame ops signedChar fuel g my_initiative = some (.ok () g2) →
      ∃ g1 : Game F, IsGameEnded ops g1 = true ∧ g2 = gameOver ops g1) ∧
    (∀ g : Game F, (gameOver ops g).cout =
      g.cout ++ PrintFieldPair ops g.my_field_ g.other_field_ ++
        ["Game over! ", if ops.IsLoser g.my_field_ then "You lose." else "You win!", "\n"]) ∧
    (∀ g : Game F, ops.IsLoser g.my_field_ = false → ops.IsLoser g.other_field_ = true →
      IsGameEnded ops g = true ∧
      (gameOver ops g).cout =
        g.cout ++ PrintFieldPair ops g.my_field_ g.other_field_ ++
          ["Game over! ", "You win!", "\n"]) := by
  refine ⟨?_, ?_, ?_, StartGame_ok_ended ops signedChar, ?_, ?_⟩
  · intro g
    simp [IsGameEnded]
  · intro fuel g my_initiative hend
    simp only [StartGame, hend, if_true]
  · intro fuel g my_initiative hend
    simp only [StartGame, hend, Bool.false_eq_true, if_false]
  · intro g
    simp [gameOver, Game.print, PrintFields]
  · intro g hmy hother
    refine ⟨by simp [IsGameEnded, hother], ?_⟩
    simp [gameOver, Game.print, PrintFields, hmy]

theorem StartGame_report_witness :
    StartGame sampleOps true 2 (sampleGame [] [66, 49]) false
      = some (.ok () (gameOver sampleOps
          (loopBody sampleOps true (sampleGame [] [66, 49]) false).game)) ∧
    (∃ g1 : Game SampleField, IsGameEnded sampleOps g1 = true ∧
      gameOver sampleOps (loopBody sampleOps true (sampleGame [] [66, 49]) false).game
        = gameOver sampleOps g1) ∧
    (IsGameEnded sampleOps (sampleGame [] [66, 49]) = false) ∧
    StartGame sampleOps true 1
        { sampleGame [] [] with other_field_ := { weight := 0, ships := [], calls := [] } } true
      = some (.ok () (gameOver sampleOps
          { sampleGame [] [] with
            other_field_ := { weight := 0, ships := [], calls := [] } })) :=
  ⟨rfl,
    (StartGame_report sampleOps true).2.2.2.1 2 (sampleGame [] [66, 49]) false _ rfl,
    by decide,
    (StartGame_report sampleOps true).2.1 0 _ true (by decide)⟩

/-- C10. Both peers address the same cell: for every well-formed move `m`,
the sender, which types and sends `MoveToString m`, applies its `Mark`
operation to the opponent-model board with the arguments `(m.second, m.first)`,
and the receiver, which decodes those two bytes, applies `Shoot` to its own
board with the same arguments `(m.second, m.first)`: the digit index first,
the letter index second. -/
theorem peers_same_cell {F G : Type} (opsS : FieldOps F) (opsR : FieldOps G)
    (signedS signedR : Bool) (gs : Game F) (gr : Game G) (m : Int × Int)
    (hm1 : 0 ≤ m.1 ∧ m.1 < 9) (hm2 : 0 ≤ m.2 ∧ m.2 < 9)
    (more : List (List Byte)) (hcin : gs.cin = MoveToString m :: more)
    (hcap : 2 ≤ gs.socket.capacity)
    (b : Byte) (rest : List Byte) (hin : gs.socket.incoming = b :: rest) (hb : b.val ≤ 2)
    (restR : List Byte) (hinR : gr.socket.incoming = MoveToString m ++ restR)
    (result : ShotResult) (field : G)
    (hs : opsR.Shoot gr.my_field_ m.2 m.1 = .ok (result, field))
    (hcapR : 1 ≤ gr.socket.capacity) :
    ∃ (flagS : Bool) (gs1 : Game F) (flagR : Bool) (gr1 : Game G),
      loopBody opsS signedS gs true = .ok flagS gs1 ∧
      gs1.socket.sent = gs.socket.sent ++ MoveToString m ∧
      (b.val = 0 → gs1.other_field_ = opsS.MarkMiss gs.other_field_ m.2 m.1) ∧
      (b.val = 1 → gs1.other_field_ = opsS.MarkHit gs.other_field_ m.2 m.1) ∧
      (b.val = 2 → gs1.other_field_ = opsS.MarkKill gs.other_field_ m.2 m.1) ∧
      loopBody opsR signedR gr false = .ok flagR gr1 ∧
      gr1.my_field_ = field ∧
      gr1.socket.sent = gr.socket.sent ++ [intToChar result.toInt] := by
  obtain ⟨h0, h1, e0, e1⟩ := wire_bytes m.1 m.2 hm1 hm2
  have hparse : ParseMove signedS (MoveToString m) = some m :=
    (ParseMove_eq_some_iff signedS _ _).2
      ⟨_, _, rfl, h0.1, h0.2, h1.1, h1.2, by rw [e0, e1]⟩
  have hS := loopBody_local_valid opsS signedS gs (MoveToString m) more m b rest hcin hparse
    hcap hin hb
  have hR : loopBody opsR signedR gr false
      = remoteTurn opsR signedR (PrintFields opsR gr) false := by
    simp only [loopBody, Bool.false_eq_true, if_false]
  rw [remoteTurn_valid opsR signedR (PrintFields opsR gr) false _ _ restR
    (by simpa [MoveToString] using hinR) h0 h1 result field
    (by rw [e0, e1]; simpa using hs) (by simpa using hcapR)] at hR
  rcases ofInt_cases b hb with ⟨hv, ho⟩ | ⟨hv, ho⟩ | ⟨hv, ho⟩ <;>
    rw [ho] at hS <;> simp only [] at hS <;>
    refine ⟨_, _, _, _, hS, ?_, ?_, ?_, ?_, hR, rfl, ?_⟩ <;>
    simp [hv, print_socket, received_sent, wrote_sent, readWord_socket, PrintFields_socket]

theorem peers_same_cell_witness :
    (sampleGame [[66, 49]] [2]).cin = [MoveToString (1, 0)] ∧
    (sampleGame [] [66, 49]).socket.incoming = MoveToString (1, 0) ++ [] ∧
    (loopBody sampleOps true (sampleGame [[66, 49]] [2]) true).game.other_field_.calls
      = [Call.MarkKill 0 1] ∧
    (loopBody sampleOps false (sampleGame [] [66, 49]) false).game.my_field_.calls
      = [Call.Shoot 0 1] ∧
    ∃ (flagS : Bool) (gs1 : Game SampleField) (flagR : Bool) (gr1 : Game SampleField),
      loopBody sampleOps true (sampleGame [[66, 49]] [2]) true = .ok flagS gs1 ∧
      gs1.socket.sent = (sampleGame [[66, 49]] [2]).socket.sent ++ MoveToString (1, 0) ∧
      (((2 : Byte).val = 0) → gs1.other_field_
        = sampleOps.MarkMiss (sampleGame [[66, 49]] [2]).other_field_ (1, 0).2 (1, 0).1) ∧
      (((2 : Byte).val = 1) → gs1.other_field_
        = sampleOps.MarkHit (sampleGame [[66, 49]] [2]).other_field_ (1, 0).2 (1, 0).1) ∧
      (((2 : Byte).val = 2) → gs1.other_field_
        = sampleOps.MarkKill (sampleGame [[66, 49]] [2]).other_field_ (1, 0).2 (1, 0).1) ∧
      loopBody sampleOps false (sampleGame [] [66, 49]) false = .ok flagR gr1 ∧
      gr1.my_field_ = { weight := 0, ships := [], calls := [Call.Shoot 0 1] } ∧
      gr1.socket.sent
        = (sampleGame [] [66, 49]).socket.sent ++ [intToChar ShotResult.KILL.toInt] :=
  ⟨by decide, by decide, by decide, by decide,
    peers_same_cell sampleOps sampleOps true false (sampleGame [[66, 49]] [2])
      (sampleGame [] [66, 49]) (1, 0) (by decide) (by decide) [] (by decide) (by decide)
      2 [] rfl (by decide) [] (by decide) ShotResult.KILL
      { weight := 0, ships := [], calls := [Call.Shoot 0 1] } rfl (by decide)⟩

end Seabattle
